import Mathlib

/-!
Verification of the counter-aggregation layer of `extension/src/counter_agg.rs`.

The file shallowly embeds the transition-state machinery of the extension
(`CounterSummaryTransState` with its `combine_points`, `push_summary`,
`combine_summaries`, the aggregate entry points `counter_agg_trans`,
`counter_agg_summary_trans`, `counter_agg_final`, the serialization pair and
the extrapolation-method dispatch) and proves the specified properties about
it.  `f64` values are embedded as exact rationals, `i64` timestamps as `Int`,
a Rust panic as the `none` case of an `Option`-valued step, and a recoverable
`Result` error as the `Except.error` case.  The summaries' own operations
(`new`, `add_point`, `combine`, `bounds_valid`, the Prometheus extrapolation)
live in the external `counter_agg` crate, which is not part of this
repository's sources; those are modelled from the specification and are marked
as such in their doc comments.  The source's `sort_unstable_by_key` is
determinized as a stable insertion sort on the same key: an unstable sort's
order among equal keys is implementation-defined and has no executable
translation.
-/

/-- Embedding of Rust's `str::to_lowercase` on the character list of a
string (ASCII-faithful, which is all the dispatch table needs). -/
def lowerString (s : String) : String := ⟨s.data.map Char.toLower⟩

/-- Embedding of Rust's `str::trim`: drops leading and trailing whitespace. -/
def trimString (s : String) : String :=
  ⟨((s.data.dropWhile Char.isWhitespace).reverse.dropWhile Char.isWhitespace).reverse⟩

/-- A time-series point: `i64` microsecond timestamp and an `f64` value,
embedded exactly as a rational. -/
structure TSPoint where
  ts : Int
  val : ℚ
deriving DecidableEq, Repr

/-- Modelled from the spec: `I64Range` lives in the external `counter_agg`
crate; the spec describes bounds as an optional half-open range
`[left, right)` of `i64` timestamps. -/
structure I64Range where
  left : Int
  right : Int
deriving DecidableEq, Repr

/-- Modelled from the spec: `StatsSummary2D` lives in the external `stats_agg`
crate; the spec treats it as an opaque associative regression accumulator over
`(x, y)` pairs supporting `add_point` and `merge`. -/
structure StatsSummary2D where
  n : Nat
  sx : ℚ
  sy : ℚ
  sxy : ℚ
  sx2 : ℚ
  sy2 : ℚ
deriving DecidableEq, Repr

/-- The empty regression accumulator. -/
def StatsSummary2D.empty : StatsSummary2D := ⟨0, 0, 0, 0, 0, 0⟩

/-- Modelled from the spec: feeding one `(ts, val)` pair into the accumulator. -/
def StatsSummary2D.add_point (st : StatsSummary2D) (p : TSPoint) : StatsSummary2D :=
  ⟨st.n + 1, st.sx + p.ts, st.sy + p.val, st.sxy + p.ts * p.val,
   st.sx2 + p.ts * p.ts, st.sy2 + p.val * p.val⟩

/-- Modelled from the spec: the associative merge of two accumulators. -/
def StatsSummary2D.merge (a b : StatsSummary2D) : StatsSummary2D :=
  ⟨a.n + b.n, a.sx + b.sx, a.sy + b.sy, a.sxy + b.sxy, a.sx2 + b.sx2, a.sy2 + b.sy2⟩

/-- Recoverable errors of the summary operations (the spec's `InvalidInput`
class plus the overlapping-merge rejection). -/
inductive CounterError where
  | orderError
  | overlapping
  | invalidBounds
deriving DecidableEq, Repr

/-- The mergeable counter summary (the `CounterSummary` record of the external
`counter_agg` crate, whose field list is mirrored by the flat `pg_type!` in
`counter_agg.rs`). -/
structure CounterSummary where
  first : TSPoint
  second : TSPoint
  penultimate : TSPoint
  last : TSPoint
  reset_sum : ℚ
  num_resets : Nat
  num_changes : Nat
  stats : StatsSummary2D
  bounds : Option I64Range
deriving DecidableEq, Repr

/-- Modelled from the spec: `CounterSummary::new(point, bounds)` (external
`counter_agg` crate) seeds a one-point summary, with
`first = second = penultimate = last = point`, zero counters and the point fed
into the statistics accumulator. -/
def CounterSummary.new (p : TSPoint) (bounds : Option I64Range) : CounterSummary :=
  { first := p, second := p, penultimate := p, last := p, reset_sum := 0,
    num_resets := 0, num_changes := 0,
    stats := StatsSummary2D.empty.add_point p, bounds := bounds }

/-- Modelled from the spec: `CounterSummary::add_point` (external
`counter_agg` crate).  Rejects a timestamp not strictly greater than
`last.ts`; banks `last.val` into `reset_sum` on a value decrease (a reset,
which also counts as a change); counts a change on any differing value;
updates `second` only while absorbing the second point ever seen; shifts
`penultimate`/`last`; feeds the point to the statistics accumulator. -/
def CounterSummary.add_point (s : CounterSummary) (p : TSPoint) :
    Except CounterError CounterSummary :=
  if p.ts ≤ s.last.ts then .error .orderError
  else .ok {
    first := s.first
    second := if s.stats.n = 1 then p else s.second
    penultimate := s.last
    last := p
    reset_sum := s.reset_sum + (if p.val < s.last.val then s.last.val else 0)
    num_resets := s.num_resets + (if p.val < s.last.val then 1 else 0)
    num_changes := s.num_changes + (if p.val ≠ s.last.val then 1 else 0)
    stats := s.stats.add_point p
    bounds := s.bounds }

/-- Modelled from the spec: `CounterSummary::combine` (external `counter_agg`
crate) merges a later-in-time `other` into `self`.  A temporally overlapping
pair is rejected; a seam reset (`other.first.val < self.last.val`) banks
`self.last.val`; `first`/`second` remain `self`'s, `penultimate`/`last` adopt
`other`'s; sums and statistics are added; an absent bounds adopts the other
side's bounds. -/
def CounterSummary.combine (s other : CounterSummary) :
    Except CounterError CounterSummary :=
  if other.first.ts < s.last.ts then .error .overlapping
  else .ok {
    first := s.first
    second := s.second
    penultimate := other.penultimate
    last := other.last
    reset_sum := s.reset_sum + other.reset_sum +
      (if other.first.val < s.last.val then s.last.val else 0)
    num_resets := s.num_resets + other.num_resets +
      (if other.first.val < s.last.val then 1 else 0)
    num_changes := s.num_changes + other.num_changes +
      (if other.first.val ≠ s.last.val then 1 else 0)
    stats := s.stats.merge other.stats
    bounds := match s.bounds with
      | some r => some r
      | none => other.bounds }

/-- Modelled from the spec: `CounterSummary::bounds_valid` (external
`counter_agg` crate).  Absent bounds are valid; present bounds must contain
the observed half-open point range, `left ≤ first.ts` and `last.ts < right`. -/
def CounterSummary.bounds_valid (s : CounterSummary) : Bool :=
  match s.bounds with
  | none => true
  | some r => decide (r.left ≤ s.first.ts) && decide (s.last.ts < r.right)

/-- Modelled from the spec: `delta = last.val - first.val + reset_sum`. -/
def CounterSummary.delta (s : CounterSummary) : ℚ :=
  s.last.val - s.first.val + s.reset_sum

/-- Stable insertion of an element into a key-sorted list: the embedding of a
single step of the by-key sorting done by the transition state. -/
def insertByKey {α : Type} (key : α → Int) (a : α) : List α → List α
  | [] => [a]
  | b :: l => if key a ≤ key b then a :: b :: l else b :: insertByKey key a l

/-- Stable by-key insertion sort: the (determinized) embedding of the
source's `sort_unstable_by_key`. -/
def sortByKey {α : Type} (key : α → Int) : List α → List α
  | [] => []
  | a :: l => insertByKey key a (sortByKey key l)

/-- The aggregate transition state of `counter_agg.rs`: a buffer of raw
points, the bounds carried until the first fold, and a buffer of partial
summaries awaiting merge.  The two `#[serde(skip)]` fields are exactly
`point_buffer` and `bounds`. -/
structure CounterSummaryTransState where
  point_buffer : List TSPoint
  bounds : Option I64Range
  summary_buffer : List CounterSummary
deriving DecidableEq, Repr

/-- `CounterSummaryTransState::push_point`: appends to the point buffer. -/
def CounterSummaryTransState.push_point (s : CounterSummaryTransState) (p : TSPoint) :
    CounterSummaryTransState :=
  { s with point_buffer := s.point_buffer ++ [p] }

/-- The `for p in iter { summary.add_point(p).unwrap() }` loop of
`combine_points`: folds the remaining points into the seeded summary, `none`
embedding the panic of `unwrap` on an out-of-order point. -/
def foldAddPoint (acc : CounterSummary) : List TSPoint → Option CounterSummary
  | [] => some acc
  | p :: ps =>
    match acc.add_point p with
    | .ok acc2 => foldAddPoint acc2 ps
    | .error _ => none

/-- `CounterSummaryTransState::combine_points`: a no-op on an empty point
buffer; otherwise sorts the buffered points by timestamp, folds them via
`add_point` into one summary seeded from the earliest point and the carried
bounds, clears the point buffer, panics (`none`) if the summary's bounds are
invalid, and appends the summary to the summary buffer. -/
def CounterSummaryTransState.combine_points (s : CounterSummaryTransState) :
    Option CounterSummaryTransState :=
  if s.point_buffer.isEmpty then some s
  else
    match sortByKey (fun p => p.ts) s.point_buffer with
    | [] => none
    | p :: rest =>
      match foldAddPoint (CounterSummary.new p s.bounds) rest with
      | none => none
      | some summary =>
        if summary.bounds_valid then
          some { point_buffer := [], bounds := s.bounds,
                 summary_buffer := s.summary_buffer ++ [summary] }
        else none

/-- `CounterSummaryTransState::push_summary`: copies all of the other state's
buffered summaries into this state's summary buffer. -/
def CounterSummaryTransState.push_summary
    (s other : CounterSummaryTransState) : CounterSummaryTransState :=
  { s with summary_buffer := s.summary_buffer ++ other.summary_buffer }

/-- The `for sum in sum_iter { new_summary.combine(sum).unwrap() }` loop of
`combine_summaries`: left-to-right fold of `combine`, `none` embedding the
panic of `unwrap` on an overlapping pair. -/
def foldCombine (acc : CounterSummary) : List CounterSummary → Option CounterSummary
  | [] => some acc
  | x :: xs =>
    match acc.combine x with
    | .ok acc2 => foldCombine acc2 xs
    | .error _ => none

/-- `CounterSummaryTransState::combine_summaries`: first flushes pending raw
points via `combine_points`; a summary buffer of at most one entry is left
unchanged; otherwise the buffered summaries are sorted by `first.ts` and
folded pairwise left-to-right via `combine`, the buffer being replaced by the
single folded summary. -/
def CounterSummaryTransState.combine_summaries (s : CounterSummaryTransState) :
    Option CounterSummaryTransState :=
  match s.combine_points with
  | none => none
  | some s2 =>
    if s2.summary_buffer.length ≤ 1 then some s2
    else
      match sortByKey (fun t => t.first.ts) s2.summary_buffer with
      | [] => none
      | a :: rest =>
        match foldCombine a rest with
        | none => none
        | some ns => some { s2 with summary_buffer := [ns] }

/-- The persisted image of a transition state: the serde derive skips
`point_buffer` and `bounds`, so only `summary_buffer` is written. -/
structure SerializedTransState where
  summary_buffer : List CounterSummary
deriving DecidableEq, Repr

/-- `counter_summary_trans_serialize`: first combines the summaries, then
serializes the state — of which only `summary_buffer` is persisted. -/
def counter_summary_trans_serialize (state : CounterSummaryTransState) :
    Option SerializedTransState :=
  match state.combine_summaries with
  | none => none
  | some s2 => some ⟨s2.summary_buffer⟩

/-- `counter_summary_trans_deserialize`: rebuilds a transition state from the
persisted image; the skipped fields come back as their defaults (an empty
point buffer and absent bounds). -/
def counter_summary_trans_deserialize (bytes : SerializedTransState) :
    CounterSummaryTransState :=
  { point_buffer := [], bounds := none, summary_buffer := bytes.summary_buffer }

/-- `counter_agg_trans`: the per-row transition function.  A null timestamp or
value returns the state unchanged; the first non-null row creates a state
carrying the bounds argument and the point; a later row only pushes the
point. -/
def counter_agg_trans (state : Option CounterSummaryTransState)
    (ts : Option Int) (val : Option ℚ) (bounds : Option I64Range) :
    Option CounterSummaryTransState :=
  match ts, val with
  | _, none => state
  | none, _ => state
  | some ts, some val =>
    let p : TSPoint := ⟨ts, val⟩
    match state with
    | none =>
      some (CounterSummaryTransState.push_point ⟨[], bounds, []⟩ p)
    | some s => some (s.push_point p)

/-- `counter_agg_summary_trans`: the rollup transition function.  A null
summary returns the state unchanged; otherwise the summary is pushed into the
(possibly freshly created) state's summary buffer. -/
def counter_agg_summary_trans (state : Option CounterSummaryTransState)
    (value : Option CounterSummary) : Option CounterSummaryTransState :=
  match state, value with
  | state, none => state
  | none, some v => some ⟨[], none, [v]⟩
  | some s, some v => some { s with summary_buffer := s.summary_buffer ++ [v] }

/-- `counter_agg_final`: combines the state's summaries and pops the single
result.  The outer `Option` embeds a panic (`none`); the inner `Option` is the
SQL result, `none` meaning a null "no result". -/
def counter_agg_final (state : Option CounterSummaryTransState) :
    Option (Option CounterSummary) :=
  match state with
  | none => some none
  | some s =>
    match s.combine_summaries with
    | none => none
    | some s2 =>
      match s2.summary_buffer.getLast? with
      | none => some none
      | some st => if st.bounds_valid then some (some st) else none

/-- The closed enumeration of extrapolation methods. -/
inductive Method where
  | prometheus
deriving DecidableEq, Repr

/-- `as_method`: trims and lowercases the method string and matches it against
the closed enumeration. -/
def as_method (method : String) : Option Method :=
  if lowerString (trimString method) = "prometheus" then some Method.prometheus
  else none

/-- The message reported by `method_kind` for an unrecognized method name. -/
def unknownMethodMessage : String :=
  "unknown analysis method. Valid methods are prometheus"

/-- `method_kind`: resolves the method string or reports the descriptive
unrecognized-method error (`pgx::error!`, embedded as `Except.error`). -/
def method_kind (method : String) : Except String Method :=
  match as_method method with
  | some m => .ok m
  | none => .error unknownMethodMessage

/-- Modelled from the spec: `prometheus_delta` (external `counter_agg` crate)
errors on invalid bounds, yields no result when bounds are absent or fewer
than two points were seen, and otherwise projects the observed delta onto the
full bounds window. -/
def prometheus_delta (s : CounterSummary) : Except CounterError (Option ℚ) :=
  if s.bounds_valid = false then .error .invalidBounds
  else
    match s.bounds with
    | none => .ok none
    | some r =>
      if s.stats.n < 2 then .ok none
      else .ok (some (s.delta * ((r.right : ℚ) - r.left) / ((s.last.ts : ℚ) - s.first.ts)))

/-- Modelled from the spec: `prometheus_rate` (external `counter_agg` crate)
is the extrapolated delta divided by the bounds window width in seconds. -/
def prometheus_rate (s : CounterSummary) : Except CounterError (Option ℚ) :=
  match prometheus_delta s with
  | .error e => .error e
  | .ok none => .ok none
  | .ok (some d) =>
    match s.bounds with
    | none => .ok none
    | some r => .ok (some (d / (((r.right : ℚ) - r.left) / 1000000)))

/-- `counter_agg_extrapolated_delta`: dispatches on the method string
(aborting with the descriptive error on an unrecognized name) and then
unwraps the Prometheus extrapolation (a panic, embedded as `Except.error`). -/
def counter_agg_extrapolated_delta (summary : CounterSummary) (method : String) :
    Except String (Option ℚ) :=
  match method_kind method with
  | .error e => .error e
  | .ok .prometheus =>
    match prometheus_delta summary with
    | .error _ => .error "called unwrap on an Err value"
    | .ok d => .ok d

/-- `counter_agg_extrapolated_rate`: same dispatch as
`counter_agg_extrapolated_delta`, for the rate. -/
def counter_agg_extrapolated_rate (summary : CounterSummary) (method : String) :
    Except String (Option ℚ) :=
  match method_kind method with
  | .error e => .error e
  | .ok .prometheus =>
    match prometheus_rate summary with
    | .error _ => .error "called unwrap on an Err value"
    | .ok d => .ok d

theorem insertByKey_perm {α : Type} (key : α → Int) (a : α) (l : List α) :
    (insertByKey key a l).Perm (a :: l) := by
  induction l with
  | nil => exact List.Perm.refl _
  | cons b l ih =>
    simp only [insertByKey]
    split
    · exact List.Perm.refl _
    · exact (ih.cons b).trans (List.Perm.swap a b l)

theorem sortByKey_perm {α : Type} (key : α → Int) (l : List α) :
    (sortByKey key l).Perm l := by
  induction l with
  | nil => exact List.Perm.refl _
  | cons a l ih => exact (insertByKey_perm key a _).trans (ih.cons a)

theorem insertByKey_sorted {α : Type} (key : α → Int) (a : α) {l : List α}
    (h : l.Pairwise (fun x y => key x ≤ key y)) :
    (insertByKey key a l).Pairwise (fun x y => key x ≤ key y) := by
  induction l with
  | nil => simp [insertByKey]
  | cons b l ih =>
    rw [List.pairwise_cons] at h
    obtain ⟨hb, hl⟩ := h
    simp only [insertByKey]
    split
    · rename_i hab
      rw [List.pairwise_cons]
      refine ⟨?_, List.pairwise_cons.mpr ⟨hb, hl⟩⟩
      intro y hy
      rcases List.mem_cons.mp hy with rfl | hy
      · exact hab
      · exact le_trans hab (hb y hy)
    · rename_i hab
      rw [List.pairwise_cons]
      refine ⟨?_, ih hl⟩
      intro y hy
      rcases List.mem_cons.mp ((insertByKey_perm key a l).mem_iff.mp hy) with rfl | hy
      · exact le_of_lt (lt_of_not_le hab)
      · exact hb y hy

theorem sortByKey_sorted {α : Type} (key : α → Int) (l : List α) :
    (sortByKey key l).Pairwise (fun x y => key x ≤ key y) := by
  induction l with
  | nil => simp [sortByKey]
  | cons a l ih => exact insertByKey_sorted key a ih

theorem sortByKey_eq_of_perm {α : Type} (key : α → Int) {l1 l2 : List α}
    (hp : l1.Perm l2) (hd : l1.Pairwise (fun x y => key x ≠ key y)) :
    sortByKey key l1 = sortByKey key l2 := by
  have p1 := sortByKey_perm key l1
  have p2 := sortByKey_perm key l2
  have hperm : (sortByKey key l1).Perm (sortByKey key l2) :=
    p1.trans (hp.trans p2.symm)
  have hsymm : ∀ {x y : α}, key x ≠ key y → key y ≠ key x := fun h e => h e.symm
  have hd1 : (sortByKey key l1).Pairwise (fun x y => key x ≠ key y) :=
    (p1.pairwise_iff hsymm).mpr hd
  have hd2 : (sortByKey key l2).Pairwise (fun x y => key x ≠ key y) :=
    (p2.pairwise_iff hsymm).mpr ((hp.pairwise_iff hsymm).mp hd)
  have hst1 : (sortByKey key l1).Pairwise (fun x y => key x < key y) :=
    ((sortByKey_sorted key l1).and hd1).imp (fun h => lt_of_le_of_ne h.1 h.2)
  have hst2 : (sortByKey key l2).Pairwise (fun x y => key x < key y) :=
    ((sortByKey_sorted key l2).and hd2).imp (fun h => lt_of_le_of_ne h.1 h.2)
  haveI : IsAntisymm α (fun x y => key x < key y) :=
    ⟨fun _ _ h h2 => absurd (h.trans h2) (lt_irrefl _)⟩
  exact List.eq_of_perm_of_sorted hperm hst1 hst2

theorem perm_eq_of_length_le_one {α : Type} {l1 l2 : List α}
    (hp : l1.Perm l2) (h : l1.length ≤ 1) : l1 = l2 := by
  match l1, h with
  | [], _ => exact (hp.symm.eq_nil).symm
  | [a], _ =>
    have hlen := hp.length_eq
    match l2, hlen with
    | [b], _ =>
      have : a ∈ [b] := hp.subset (List.mem_singleton_self a)
      rw [List.mem_singleton] at this
      rw [this]

theorem combine_points_of_empty (s : CounterSummaryTransState)
    (h : s.point_buffer = []) : s.combine_points = some s := by
  simp [CounterSummaryTransState.combine_points, h]

theorem combine_points_buffer_empty (s s2 : CounterSummaryTransState)
    (h : s.combine_points = some s2) : s2.point_buffer = [] ∨ s2 = s := by
  unfold CounterSummaryTransState.combine_points at h
  split at h
  · right; exact ((Option.some.injEq _ _).mp h).symm
  · split at h
    · exact absurd h (by simp)
    · split at h
      · exact absurd h (by simp)
      · split at h
        · left
          rw [← (Option.some.injEq _ _).mp h]
        · exact absurd h (by simp)

theorem combine_summaries_len (s s2 : CounterSummaryTransState)
    (h : s.combine_summaries = some s2) : s2.summary_buffer.length ≤ 1 := by
  unfold CounterSummaryTransState.combine_summaries at h
  split at h
  · exact absurd h (by simp)
  · split at h
    · rename_i hlen
      rw [← (Option.some.injEq _ _).mp h]
      exact hlen
    · split at h
      · exact absurd h (by simp)
      · split at h
        · exact absurd h (by simp)
        · rw [← (Option.some.injEq _ _).mp h]
          simp

/-- Claim C1: for every `CounterSummaryTransState`, `combine_summaries` first
flushes pending raw points via `combine_points`; then, if `summary_buffer`
holds at most one summary, it leaves the state unchanged; otherwise it sorts
the buffered summaries by their `first.ts` (stably in this embedding) and
folds them pairwise left-to-right via `combine`, replacing `summary_buffer`
with exactly the single folded summary. -/
theorem combine_summaries_spec (s s2 : CounterSummaryTransState)
    (h : s.combine_points = some s2) :
    s.combine_summaries =
      (if s2.summary_buffer.length ≤ 1 then some s2
       else
         match sortByKey (fun t => t.first.ts) s2.summary_buffer with
         | [] => none
         | a :: rest =>
           match foldCombine a rest with
           | none => none
           | some ns => some { s2 with summary_buffer := [ns] }) ∧
    (sortByKey (fun t => t.first.ts) s2.summary_buffer).Perm s2.summary_buffer ∧
    (sortByKey (fun t => t.first.ts) s2.summary_buffer).Pairwise
      (fun x y => x.first.ts ≤ y.first.ts) := by
  refine ⟨?_, sortByKey_perm _ _, sortByKey_sorted _ _⟩
  unfold CounterSummaryTransState.combine_summaries
  rw [h]

/-- Claim C2: `CounterSummary` merge is associative on every temporally
non-overlapping, time-ordered triple. -/
theorem combine_assoc (a b c : CounterSummary)
    (h1 : a.last.ts ≤ b.first.ts) (h2 : b.last.ts ≤ c.first.ts) :
    (a.combine b).bind (fun ab => ab.combine c) =
    (b.combine c).bind (fun bc => a.combine bc) := by
  unfold CounterSummary.combine
  rw [if_neg (not_lt.mpr h1), if_neg (not_lt.mpr h2)]
  simp only [Except.bind]
  dsimp only
  rw [if_neg (not_lt.mpr h2), if_neg (not_lt.mpr h1)]
  simp only [Except.ok.injEq, CounterSummary.mk.injEq, StatsSummary2D.merge,
    StatsSummary2D.mk.injEq, true_and, and_true]
  refine ⟨?_, ?_, ?_, ⟨?_, ?_, ?_, ?_, ?_, ?_⟩, ?_⟩
  · split_ifs <;> ring
  · split_ifs <;> omega
  · split_ifs <;> omega
  · omega
  · ring
  · ring
  · ring
  · ring
  · ring
  · cases a.bounds <;> cases b.bounds <;> rfl

/-- Claim C4: `combine_points` is a no-op when `point_buffer` is empty (hence
idempotent); when `point_buffer` is non-empty it sorts the buffered points by
timestamp (stably in this embedding), folds them via `add_point` into one new
`CounterSummary` seeded from the earliest point and the carried bounds, clears
`point_buffer`, and appends the resulting summary to `summary_buffer`. -/
theorem combine_points_spec (s : CounterSummaryTransState) :
    (s.point_buffer = [] → s.combine_points = some s) ∧
    (∀ s2, s.combine_points = some s2 → s2.combine_points = some s2) ∧
    (∀ p rest sum,
        sortByKey (fun q => q.ts) s.point_buffer = p :: rest →
        foldAddPoint (CounterSummary.new p s.bounds) rest = some sum →
        sum.bounds_valid = true →
        s.combine_points =
          some { point_buffer := [], bounds := s.bounds,
                 summary_buffer := s.summary_buffer ++ [sum] }) ∧
    (sortByKey (fun q => q.ts) s.point_buffer).Perm s.point_buffer ∧
    (sortByKey (fun q => q.ts) s.point_buffer).Pairwise
      (fun x y => x.ts ≤ y.ts) := by
  refine ⟨fun h => combine_points_of_empty s h, ?_, ?_,
    sortByKey_perm _ _, sortByKey_sorted _ _⟩
  · intro s2 h
    rcases combine_points_buffer_empty s s2 h with he | he
    · exact combine_points_of_empty s2 he
    · rw [he] at h ⊢
      exact h
  · intro p rest sum hsort hfold hvalid
    have hne : s.point_buffer.isEmpty = false := by
      rcases hb : s.point_buffer with _ | ⟨q, qs⟩
      · rw [hb] at hsort
        simp [sortByKey] at hsort
      · rfl
    unfold CounterSummaryTransState.combine_points
    rw [hne]
    simp only [Bool.false_eq_true, if_false, hsort, hfold, hvalid, if_true]

/-- A single-point summary at timestamp 0 with value 1. -/
def sU : CounterSummary := CounterSummary.new ⟨0, 1⟩ none

/-- A single-point summary at timestamp 0 with value 2: same `first.ts` as
`sU`, so the by-`first.ts` sort cannot separate the two. -/
def sV : CounterSummary := CounterSummary.new ⟨0, 2⟩ none

/-- Claim C3 is false as stated: two partial summaries sharing the same
`first.ts` give push-order-dependent results (one order sees a seam reset,
the other does not). -/
theorem combine_summaries_order_counterexample :
    CounterSummaryTransState.combine_summaries ⟨[], none, [sU, sV]⟩ ≠
    CounterSummaryTransState.combine_summaries ⟨[], none, [sV, sU]⟩ := by
  decide

/-- Claim C3 (amended): pushing a collection of partial summaries whose
`first.ts` keys are pairwise distinct into a `CounterSummaryTransState` in any
order and then calling `combine_summaries` yields the same result; without the
distinct-key proviso the result depends on the push order. -/
theorem combine_summaries_order_independent (b : Option I64Range)
    (l1 l2 : List CounterSummary) (hp : l1.Perm l2)
    (hd : l1.Pairwise (fun x y => x.first.ts ≠ y.first.ts)) :
    CounterSummaryTransState.combine_summaries ⟨[], b, l1⟩ =
    CounterSummaryTransState.combine_summaries ⟨[], b, l2⟩ := by
  have hsort := sortByKey_eq_of_perm (fun t : CounterSummary => t.first.ts) hp hd
  have hlen := hp.length_eq
  unfold CounterSummaryTransState.combine_summaries
  rw [combine_points_of_empty ⟨[], b, l1⟩ rfl, combine_points_of_empty ⟨[], b, l2⟩ rfl]
  dsimp only
  rcases le_or_lt l1.length 1 with hle | hgt
  · rw [if_pos hle, if_pos (by omega), perm_eq_of_length_le_one hp hle]
  · rw [if_neg (by omega), if_neg (by omega), hsort]

/-- Claim C5: only `summary_buffer` survives a serialize/deserialize round
trip: `counter_summary_trans_serialize` first calls `combine_summaries`, so at
most one summary is ever serialized, and the persisted image carries only
`summary_buffer` — `point_buffer` and `bounds` come back as their defaults. -/
theorem serialize_round_trip_spec (s s2 : CounterSummaryTransState)
    (h : s.combine_summaries = some s2) :
    counter_summary_trans_serialize s = some ⟨s2.summary_buffer⟩ ∧
    s2.summary_buffer.length ≤ 1 ∧
    counter_summary_trans_deserialize ⟨s2.summary_buffer⟩ =
      ⟨[], none, s2.summary_buffer⟩ := by
  refine ⟨?_, combine_summaries_len s s2 h, rfl⟩
  unfold counter_summary_trans_serialize
  rw [h]

theorem buffer_singleton_of_getLast {α : Type} {l : List α} {r : α}
    (hlen : l.length ≤ 1) (h : l.getLast? = some r) : l = [r] := by
  rcases l with _ | ⟨x, _ | ⟨y, t⟩⟩
  · exact Option.noConfusion h
  · have hx : some x = some r := h
    injection hx with hx
    rw [hx]
  · simp [List.length_cons] at hlen

theorem counter_agg_final_eval (s : CounterSummaryTransState) :
    counter_agg_final (some s) =
      (match s.combine_summaries with
       | none => none
       | some s2 =>
         match s2.summary_buffer.getLast? with
         | none => some none
         | some st => if st.bounds_valid then some (some st) else none) := rfl

/-- Claim C6: `counter_agg_final` collapses a state to exactly one
`CounterSummary`; an absent state, or a state with no points and no summaries,
produces "no result" (a null) rather than a summary. -/
theorem counter_agg_final_spec :
    counter_agg_final none = some none ∧
    (∀ s : CounterSummaryTransState, s.point_buffer = [] → s.summary_buffer = [] →
        counter_agg_final (some s) = some none) ∧
    (∀ (s : CounterSummaryTransState) (r : CounterSummary),
        counter_agg_final (some s) = some (some r) →
        ∃ s2, s.combine_summaries = some s2 ∧ s2.summary_buffer = [r]) := by
  refine ⟨rfl, ?_, ?_⟩
  · intro s hp hs
    have h1 : s.combine_summaries = some s := by
      unfold CounterSummaryTransState.combine_summaries
      rw [combine_points_of_empty s hp]
      simp [hs]
    rw [counter_agg_final_eval, h1]
    simp only [hs, List.getLast?_nil]
  · intro s r h
    rw [counter_agg_final_eval] at h
    split at h
    · exact Option.noConfusion h
    · rename_i s2 hcs
      split at h
      · injection h with h
        exact Option.noConfusion h
      · rename_i st hlast
        split at h
        · injection h with h
          injection h with h
          refine ⟨s2, hcs, ?_⟩
          rw [← h]
          exact buffer_singleton_of_getLast (combine_summaries_len s s2 hcs) hlast
        · exact Option.noConfusion h

/-- Claim C7: whenever a bounds-dependent check runs — after `combine_points`
folds buffered points, and in `counter_agg_final` before returning the
combined summary — bounds that are present but do not contain the observed
point range cause a fatal panic (embedded as `none`) rather than a recoverable
error or a returned summary. -/
theorem bounds_invalid_fatal :
    (∀ (s : CounterSummaryTransState) (p : TSPoint) (rest : List TSPoint)
        (sum : CounterSummary),
        sortByKey (fun q => q.ts) s.point_buffer = p :: rest →
        foldAddPoint (CounterSummary.new p s.bounds) rest = some sum →
        sum.bounds_valid = false →
        s.combine_points = none) ∧
    (∀ (s s2 : CounterSummaryTransState) (st : CounterSummary),
        s.combine_summaries = some s2 → s2.summary_buffer = [st] →
        st.bounds_valid = false →
        counter_agg_final (some s) = none) ∧
    (∀ (st : CounterSummary) (r : I64Range), st.bounds = some r →
        ¬(r.left ≤ st.first.ts ∧ st.last.ts < r.right) →
        st.bounds_valid = false) := by
  refine ⟨?_, ?_, ?_⟩
  · intro s p rest sum hsort hfold hvalid
    have hne : s.point_buffer.isEmpty = false := by
      rcases hb : s.point_buffer with _ | ⟨q, qs⟩
      · rw [hb] at hsort
        simp [sortByKey] at hsort
      · rfl
    unfold CounterSummaryTransState.combine_points
    rw [hne]
    simp only [Bool.false_eq_true, if_false, hsort, hfold, hvalid]
  · intro s s2 st hcs hbuf hvalid
    have hlast : s2.summary_buffer.getLast? = some st := by
      rw [hbuf]
      rfl
    rw [counter_agg_final_eval, hcs]
    simp only [hlast, hvalid, Bool.false_eq_true, if_false]
  · intro st r hb hcon
    unfold CounterSummary.bounds_valid
    rw [hb]
    simp only [Bool.and_eq_false_iff, decide_eq_false_iff_not]
    tauto

/-- Claim C8: the extrapolation method string is case-insensitively trimmed
and matched against a closed enumeration: `as_method` returns the Prometheus
method exactly when the trimmed, lowercased string equals "prometheus", and
for every other string `method_kind` — hence `extrapolated_delta` and
`extrapolated_rate` — fails immediately with a descriptive error instead of
returning a result. -/
theorem method_dispatch_spec (method : String) :
    (as_method method = some Method.prometheus ↔
        lowerString (trimString method) = "prometheus") ∧
    (lowerString (trimString method) ≠ "prometheus" →
        method_kind method = .error unknownMethodMessage ∧
        ∀ s : CounterSummary,
          counter_agg_extrapolated_delta s method = .error unknownMethodMessage ∧
          counter_agg_extrapolated_rate s method = .error unknownMethodMessage) := by
  constructor
  · unfold as_method
    split
    · rename_i h
      simp [h]
    · rename_i h
      simp [h]
  · intro hne
    have hm : method_kind method = .error unknownMethodMessage := by
      unfold method_kind as_method
      rw [if_neg hne]
    refine ⟨hm, fun s => ⟨?_, ?_⟩⟩
    · unfold counter_agg_extrapolated_delta
      rw [hm]
    · unfold counter_agg_extrapolated_rate
      rw [hm]

/-- Claim C9: for every already-created state, `counter_agg_trans` leaves the
`bounds` field unchanged; the bounds argument is consulted only when the first
input creates the state. -/
theorem counter_agg_trans_bounds_frame :
    (∀ (s : CounterSummaryTransState) (ts : Option Int) (val : Option ℚ)
        (b : Option I64Range) (s2 : CounterSummaryTransState),
        counter_agg_trans (some s) ts val b = some s2 → s2.bounds = s.bounds) ∧
    (∀ (t : Int) (v : ℚ) (b : Option I64Range),
        counter_agg_trans none (some t) (some v) b = some ⟨[⟨t, v⟩], b, []⟩) := by
  constructor
  · intro s ts val b s2 h
    rcases ts with _ | t
    · rcases val with _ | v
      · injection h with h
        rw [← h]
      · injection h with h
        rw [← h]
    · rcases val with _ | v
      · injection h with h
        rw [← h]
      · injection h with h
        rw [← h]
        rfl
  · intro t v b
    rfl

/-- Claim C10: null inputs are silently skipped: `counter_agg_trans` with a
null timestamp or a null value returns its state operand unchanged (creating
no new state), and `counter_agg_summary_trans` with a null summary returns its
state operand unchanged. -/
theorem null_inputs_skipped :
    (∀ (state : Option CounterSummaryTransState) (ts : Option Int)
        (b : Option I64Range), counter_agg_trans state ts none b = state) ∧
    (∀ (state : Option CounterSummaryTransState) (val : Option ℚ)
        (b : Option I64Range), counter_agg_trans state none val b = state) ∧
    (∀ state : Option CounterSummaryTransState,
        counter_agg_summary_trans state none = state) := by
  refine ⟨fun state ts b => ?_, fun state val b => ?_, fun state => ?_⟩
  · cases ts <;> rfl
  · cases val <;> rfl
  · cases state <;> rfl

/-- A single-point summary at timestamp 0 with value 5. -/
def cA : CounterSummary := CounterSummary.new ⟨0, 5⟩ none

/-- A single-point summary at timestamp 1 with value 3: a seam reset when
combined after `cA`. -/
def cB : CounterSummary := CounterSummary.new ⟨1, 3⟩ none

/-- A single-point summary at timestamp 2 with value 4. -/
def cC : CounterSummary := CounterSummary.new ⟨2, 4⟩ none

/-- The single summary produced by combining `cA` and `cB` in time order. -/
def cAB : CounterSummary :=
  ⟨⟨0, 5⟩, ⟨0, 5⟩, ⟨1, 3⟩, ⟨1, 3⟩, 5, 1, 1, ⟨2, 1, 8, 3, 1, 34⟩, none⟩

/-- The summary folded from the raw points `(0, 10)` and `(1, 20)`. -/
def twoPointSummary : CounterSummary :=
  ⟨⟨0, 10⟩, ⟨1, 20⟩, ⟨0, 10⟩, ⟨1, 20⟩, 0, 0, 1, ⟨2, 1, 30, 20, 1, 500⟩, none⟩

/-- A summary whose point `(5, 1)` lies outside its bounds `[0, 1)`. -/
def sBad : CounterSummary := CounterSummary.new ⟨5, 1⟩ (some ⟨0, 1⟩)

/-- Witness for C1 at a concrete state holding two out-of-order summaries. -/
theorem combine_summaries_spec_witness :
    CounterSummaryTransState.combine_summaries ⟨[], none, [cB, cA]⟩ =
      some ⟨[], none, [cAB]⟩ := by
  have h := (combine_summaries_spec ⟨[], none, [cB, cA]⟩ ⟨[], none, [cB, cA]⟩ rfl).1
  rw [h]
  with_unfolding_all rfl

/-- Witness for C2 at a concrete time-ordered triple with a seam reset. -/
theorem combine_assoc_witness :
    (cA.combine cB).bind (fun ab => ab.combine cC) =
    (cB.combine cC).bind (fun bc => cA.combine bc) :=
  combine_assoc cA cB cC (by decide) (by decide)

/-- Witness for the amended C3 at a concrete two-element permutation with
distinct `first.ts` keys. -/
theorem combine_summaries_order_independent_witness :
    CounterSummaryTransState.combine_summaries ⟨[], none, [cA, cB]⟩ =
    CounterSummaryTransState.combine_summaries ⟨[], none, [cB, cA]⟩ :=
  combine_summaries_order_independent none [cA, cB] [cB, cA]
    (List.Perm.swap cB cA []) (by decide)

/-- Witness for C4 at a concrete state with two out-of-order raw points. -/
theorem combine_points_spec_witness :
    CounterSummaryTransState.combine_points ⟨[⟨1, 20⟩, ⟨0, 10⟩], none, []⟩ =
      some ⟨[], none, [twoPointSummary]⟩ :=
  (combine_points_spec ⟨[⟨1, 20⟩, ⟨0, 10⟩], none, []⟩).2.2.1 ⟨0, 10⟩ [⟨1, 20⟩]
    twoPointSummary (by decide) (by with_unfolding_all rfl) (by decide)

/-- Witness for C5 at a concrete one-summary state. -/
theorem serialize_round_trip_spec_witness :
    counter_summary_trans_serialize ⟨[], none, [cA]⟩ = some ⟨[cA]⟩ ∧
    ([cA] : List CounterSummary).length ≤ 1 ∧
    counter_summary_trans_deserialize ⟨[cA]⟩ = ⟨[], none, [cA]⟩ :=
  serialize_round_trip_spec ⟨[], none, [cA]⟩ ⟨[], none, [cA]⟩ (by with_unfolding_all rfl)

/-- Witness for C6 at the empty (but created) state. -/
theorem counter_agg_final_spec_witness :
    counter_agg_final (some ⟨[], none, []⟩) = some none :=
  counter_agg_final_spec.2.1 ⟨[], none, []⟩ rfl rfl

/-- Witness for C7 at a point outside its carried bounds. -/
theorem bounds_invalid_fatal_witness :
    CounterSummaryTransState.combine_points ⟨[⟨5, 1⟩], some ⟨0, 1⟩, []⟩ = none ∧
    counter_agg_final (some ⟨[], none, [sBad]⟩) = none ∧
    sBad.bounds_valid = false :=
  ⟨bounds_invalid_fatal.1 ⟨[⟨5, 1⟩], some ⟨0, 1⟩, []⟩ ⟨5, 1⟩ [] sBad (by decide)
      (by with_unfolding_all rfl) (by decide),
   bounds_invalid_fatal.2.1 ⟨[], none, [sBad]⟩ ⟨[], none, [sBad]⟩ sBad
      (by with_unfolding_all rfl) rfl (by decide),
   bounds_invalid_fatal.2.2 sBad ⟨0, 1⟩ rfl (by decide)⟩

/-- Witness for C8 at the unrecognized method string "bogus". -/
theorem method_dispatch_spec_witness :
    method_kind "bogus" = .error unknownMethodMessage ∧
    counter_agg_extrapolated_delta cA "bogus" = .error unknownMethodMessage ∧
    counter_agg_extrapolated_rate cA "bogus" = .error unknownMethodMessage :=
  ⟨((method_dispatch_spec "bogus").2 (by decide)).1,
   (((method_dispatch_spec "bogus").2 (by decide)).2 cA).1,
   (((method_dispatch_spec "bogus").2 (by decide)).2 cA).2⟩

/-- Witness for C9 at a state carrying bounds and a later non-null input. -/
theorem counter_agg_trans_bounds_frame_witness :
    (CounterSummaryTransState.mk [⟨1, 2⟩] (some ⟨0, 9⟩) []).bounds =
      (CounterSummaryTransState.mk [] (some ⟨0, 9⟩) []).bounds :=
  counter_agg_trans_bounds_frame.1 ⟨[], some ⟨0, 9⟩, []⟩ (some 1) (some 2) none
    ⟨[⟨1, 2⟩], some ⟨0, 9⟩, []⟩ (by decide)
